import Mathlib

/-!
Verification of the padded-batch perplexity computation from
`C3_W2_lecture_nb_02_perplexity.ipynb`.

The notebook computes, for a batch of per-token log-probabilities
`predictions` of shape (B, T, V) and integer token ids `targets` of shape
(B, T):

    reshaped_targets = tl.one_hot(targets, predictions.shape[-1])
    total_log_ppx    = np.sum(predictions * reshaped_targets, axis=-1)
    non_pad          = 1.0 - np.equal(targets, 0)
    real_log_ppx     = total_log_ppx * non_pad
    log_ppx          = -(np.sum(real_log_ppx) / np.sum(non_pad))
    perplexity       = np.exp(log_ppx)

We embed the arrays as functions over `Fin`: `predictions : Fin B → Fin T →
Fin V → ℚ` and `targets : Fin B → Fin T → ℕ` (exact rational arithmetic
stands in for IEEE floats; `exp` lives in `ℝ`).  The padding sentinel
`pad_id` is an explicit parameter, defaulting to 0 in the notebook.
-/

open Finset

namespace Perplexity

variable {B T V : ℕ}

/-- One row of `tl.one_hot(targets, V)`: entry `v` is 1 exactly when the
integer id `t` equals `v` (an out-of-range id yields the all-zero row,
exactly as `tl.one_hot` does). -/
def one_hot (V : ℕ) (t : ℕ) : Fin V → ℚ :=
  fun v => if (v : ℕ) = t then 1 else 0

/-- The notebook's `total_log_ppx = np.sum(predictions * reshaped_targets,
axis=-1)`: at each (b, t), the vocabulary-wise dot product of the
prediction row with the one-hot row of the target. -/
def total_log_ppx (pred : Fin B → Fin T → Fin V → ℚ) (tgt : Fin B → Fin T → ℕ) :
    Fin B → Fin T → ℚ :=
  fun b t => ∑ v, pred b t v * one_hot V (tgt b t) v

/-- The notebook's `non_pad = 1.0 - np.equal(targets, 0)`, with the padding
sentinel generalised to `padId` as in the spec's contract. -/
def non_pad (padId : ℕ) (tgt : Fin B → Fin T → ℕ) : Fin B → Fin T → ℚ :=
  fun b t => 1 - (if tgt b t = padId then 1 else 0)

/-- The notebook's `real_log_ppx = total_log_ppx * non_pad`. -/
def real_log_ppx (pred : Fin B → Fin T → Fin V → ℚ) (tgt : Fin B → Fin T → ℕ)
    (padId : ℕ) : Fin B → Fin T → ℚ :=
  fun b t => total_log_ppx pred tgt b t * non_pad padId tgt b t

/-- The notebook's `np.sum(non_pad)`: number of non-pad positions, as a
rational scalar. -/
def sum_non_pad (padId : ℕ) (tgt : Fin B → Fin T → ℕ) : ℚ :=
  ∑ b, ∑ t, non_pad padId tgt b t

/-- The notebook's `np.sum(real_log_ppx)`: total masked log-probability. -/
def sum_real_log_ppx (pred : Fin B → Fin T → Fin V → ℚ)
    (tgt : Fin B → Fin T → ℕ) (padId : ℕ) : ℚ :=
  ∑ b, ∑ t, real_log_ppx pred tgt padId b t

/-- The notebook's `log_ppx = -(np.sum(real_log_ppx) / np.sum(non_pad))`. -/
def log_ppx (pred : Fin B → Fin T → Fin V → ℚ) (tgt : Fin B → Fin T → ℕ)
    (padId : ℕ) : ℚ :=
  -(sum_real_log_ppx pred tgt padId / sum_non_pad padId tgt)

/-- Error taxonomy of the spec's `compute` contract (§7).  `ShapeMismatch`
cannot arise in this embedding: the shapes (B, T, V) are carried by the
types of the arrays. -/
inductive PerplexityError where
  | ShapeMismatch
  | IndexOutOfRange
  | DivisionByZero
  deriving DecidableEq, Repr

/-- The result pair `(log_perplexity, perplexity)` of the spec's data
model. -/
structure PerplexityResult where
  log_perplexity : ℝ
  perplexity : ℝ

/-- Modelled from the spec: the notebook performs the reduction inline with
no error handling, so the fallible `compute` contract of spec §4.1/§7 (the
`IndexOutOfRange` check for a target id outside [0, V), surfaced by step
1's gather before any division, and the `DivisionByZero` check for a batch
with zero non-pad tokens) is taken from the spec's words; the arithmetic
itself is the notebook's.  This computable core returns the scalar
`log_ppx`. -/
def computeLog (pred : Fin B → Fin T → Fin V → ℚ) (tgt : Fin B → Fin T → ℕ)
    (padId : ℕ) : Except PerplexityError ℚ :=
  if _h : ∀ b t, tgt b t < V then
    if sum_non_pad padId tgt = 0 then
      .error .DivisionByZero
    else
      .ok (log_ppx pred tgt padId)
  else
    .error .IndexOutOfRange

/-- Modelled from the spec: the full `compute(predictions, targets,
pad_id) -> PerplexityResult` contract, pairing the notebook's `log_ppx`
with `np.exp(log_ppx)`. -/
noncomputable def compute (pred : Fin B → Fin T → Fin V → ℚ)
    (tgt : Fin B → Fin T → ℕ) (padId : ℕ) :
    Except PerplexityError PerplexityResult :=
  (computeLog pred tgt padId).map fun lp =>
    ⟨(lp : ℝ), Real.exp (lp : ℝ)⟩

/-- Direct-gather formulation of step 1 of the spec's algorithm:
`selected[b,t] = predictions[b,t, targets[b,t]]` (defined as 0 when the id
is out of range, where the gather of the spec would fail). -/
def selected (pred : Fin B → Fin T → Fin V → ℚ) (tgt : Fin B → Fin T → ℕ) :
    Fin B → Fin T → ℚ :=
  fun b t => if h : tgt b t < V then pred b t ⟨tgt b t, h⟩ else 0

/-- The sum, over the positions whose target is not the pad id, of the
gathered true-class log-probabilities (the spec's `total`). -/
def gatherTotal (pred : Fin B → Fin T → Fin V → ℚ) (tgt : Fin B → Fin T → ℕ)
    (padId : ℕ) : ℚ :=
  ∑ b, ∑ t, if tgt b t = padId then 0 else selected pred tgt b t

/-- The number of positions (b, t) with `targets[b,t] != pad_id` (the
spec's `count`). -/
def nonPadCount (tgt : Fin B → Fin T → ℕ) (padId : ℕ) : ℕ :=
  (univ.filter fun bt : Fin B × Fin T => ¬ tgt bt.1 bt.2 = padId).card

/-- Modelled from the spec: the spec's step 1 written with the direct
gather `selected` instead of the notebook's one-hot dot product, for the
refinement comparison; all other steps are identical to `computeLog`. -/
def computeGatherLog (pred : Fin B → Fin T → Fin V → ℚ)
    (tgt : Fin B → Fin T → ℕ) (padId : ℕ) : Except PerplexityError ℚ :=
  if _h : ∀ b t, tgt b t < V then
    if sum_non_pad padId tgt = 0 then
      .error .DivisionByZero
    else
      .ok (-((∑ b, ∑ t, selected pred tgt b t * non_pad padId tgt b t)
            / sum_non_pad padId tgt))
  else
    .error .IndexOutOfRange

/-- Modelled from the spec: the direct-gather formulation of `compute`. -/
noncomputable def computeGather (pred : Fin B → Fin T → Fin V → ℚ)
    (tgt : Fin B → Fin T → ℕ) (padId : ℕ) :
    Except PerplexityError PerplexityResult :=
  (computeGatherLog pred tgt padId).map fun lp =>
    ⟨(lp : ℝ), Real.exp (lp : ℝ)⟩

/-- Concrete example batch, B = 1, T = 2, V = 2: log-probabilities for the
two positions of the single sequence. -/
def exPred : Fin 1 → Fin 2 → Fin 2 → ℚ :=
  ![![![-1, -2], ![-3, -4]]]

/-- Concrete example batch with uniformly smaller true-class
log-probabilities than `exPred`. -/
def exPredLow : Fin 1 → Fin 2 → Fin 2 → ℚ :=
  ![![![-5, -6], ![-7, -8]]]

/-- Concrete example targets for `exPred`: token 1 at position 0, padding
at position 1. -/
def exTgt : Fin 1 → Fin 2 → ℕ :=
  ![![1, 0]]

/-- Concrete example targets that are entirely padding. -/
def exTgtPad : Fin 1 → Fin 2 → ℕ :=
  ![![0, 0]]

/-- Concrete example targets containing an id (7) outside the vocabulary
range [0, 2). -/
def exTgtBad : Fin 1 → Fin 2 → ℕ :=
  ![![7, 0]]

/-- Concrete example batch agreeing with `exPred` at the non-pad position
(0, 0) but differing at the pad position (0, 1). -/
def exPredPadDiff : Fin 1 → Fin 2 → Fin 2 → ℚ :=
  ![![![-1, -2], ![9, 9]]]

/-- Concrete example batch agreeing with `exPred` at every true-class
entry (entry 1 at position (0, 0), entry 0 at position (0, 1)) but
differing in the other vocabulary entries. -/
def exPredOther : Fin 1 → Fin 2 → Fin 2 → ℚ :=
  ![![![5, -2], ![-3, 9]]]

/-- Concrete example batch with two sequences, B = 2, T = 2, V = 2. -/
def exPredB2 : Fin 2 → Fin 2 → Fin 2 → ℚ :=
  ![![![-1, -2], ![-3, -4]], ![![-5, -6], ![-7, -8]]]

/-- Concrete example targets for `exPredB2`. -/
def exTgtB2 : Fin 2 → Fin 2 → ℕ :=
  ![![1, 0], ![1, 1]]

/-- On an in-range target id, the one-hot dot product gathers exactly the
true-class entry. -/
lemma total_log_ppx_eq_selected (pred : Fin B → Fin T → Fin V → ℚ)
    (tgt : Fin B → Fin T → ℕ) (b : Fin B) (t : Fin T) (h : tgt b t < V) :
    total_log_ppx pred tgt b t = pred b t ⟨tgt b t, h⟩ := by
  unfold total_log_ppx one_hot
  have key : ∀ v : Fin V,
      pred b t v * (if (v : ℕ) = tgt b t then (1 : ℚ) else 0)
        = if v = ⟨tgt b t, h⟩ then pred b t v else 0 := by
    intro v
    by_cases hv : (v : ℕ) = tgt b t
    · simp [hv, Fin.ext_iff]
    · simp [hv, Fin.ext_iff]
  rw [Finset.sum_congr rfl fun v _ => key v, Finset.sum_ite_eq']
  simp

/-- `non_pad` is the 0/1 indicator of a non-pad position. -/
lemma non_pad_eq_ite (padId : ℕ) (tgt : Fin B → Fin T → ℕ) (b : Fin B)
    (t : Fin T) :
    non_pad padId tgt b t = if tgt b t = padId then 0 else 1 := by
  unfold non_pad
  by_cases h : tgt b t = padId <;> simp [h]

/-- The scalar `np.sum(non_pad)` counts the non-pad positions. -/
lemma sum_non_pad_eq_count (padId : ℕ) (tgt : Fin B → Fin T → ℕ) :
    sum_non_pad padId tgt = (nonPadCount tgt padId : ℚ) := by
  unfold sum_non_pad nonPadCount
  have key : ∀ b t, non_pad padId tgt b t
      = if ¬ tgt b t = padId then (1 : ℚ) else 0 := by
    intro b t
    rw [non_pad_eq_ite]
    by_cases h : tgt b t = padId <;> simp [h]
  rw [Finset.sum_congr rfl fun b _ => Finset.sum_congr rfl fun t _ => key b t,
    ← Finset.sum_product' univ univ fun b t => if ¬ tgt b t = padId then (1 : ℚ) else 0,
    Finset.univ_product_univ, Finset.sum_boole]

/-- When every target id is in range, the notebook's masked total equals
the spec's gather-formulated total. -/
lemma sum_real_eq_gatherTotal (pred : Fin B → Fin T → Fin V → ℚ)
    (tgt : Fin B → Fin T → ℕ) (padId : ℕ) (hrange : ∀ b t, tgt b t < V) :
    sum_real_log_ppx pred tgt padId = gatherTotal pred tgt padId := by
  unfold sum_real_log_ppx gatherTotal
  refine Finset.sum_congr rfl fun b _ => Finset.sum_congr rfl fun t _ => ?_
  unfold real_log_ppx
  rw [non_pad_eq_ite, total_log_ppx_eq_selected pred tgt b t (hrange b t)]
  by_cases h : tgt b t = padId
  · simp [h]
  · simp [h, selected, hrange b t]

/-- A batch with at least one non-pad token has a positive non-pad
count. -/
lemma sum_non_pad_pos (padId : ℕ) (tgt : Fin B → Fin T → ℕ)
    (hnp : ∃ b t, tgt b t ≠ padId) : 0 < sum_non_pad padId tgt := by
  obtain ⟨b, t, hbt⟩ := hnp
  rw [sum_non_pad_eq_count]
  have : 0 < nonPadCount tgt padId := by
    apply Finset.card_pos.mpr
    exact ⟨(b, t), Finset.mem_filter.mpr ⟨Finset.mem_univ _, hbt⟩⟩
  exact_mod_cast this

/-- A batch with at least one non-pad token has a nonzero non-pad count. -/
lemma sum_non_pad_ne_zero (padId : ℕ) (tgt : Fin B → Fin T → ℕ)
    (hnp : ∃ b t, tgt b t ≠ padId) : sum_non_pad padId tgt ≠ 0 :=
  ne_of_gt (sum_non_pad_pos padId tgt hnp)

/-- On in-range targets with a nonzero non-pad count, `compute` succeeds
and returns exactly the notebook's pair `(log_ppx, exp log_ppx)`. -/
lemma compute_eq_ok (pred : Fin B → Fin T → Fin V → ℚ)
    (tgt : Fin B → Fin T → ℕ) (padId : ℕ) (hrange : ∀ b t, tgt b t < V)
    (hne : sum_non_pad padId tgt ≠ 0) :
    compute pred tgt padId = Except.ok
      ⟨((log_ppx pred tgt padId : ℚ) : ℝ),
       Real.exp ((log_ppx pred tgt padId : ℚ) : ℝ)⟩ := by
  unfold compute computeLog
  rw [dif_pos hrange, if_neg hne]
  rfl

/-- C1: with pad_id = 0 and at least one non-pad target, `compute` returns
log_perplexity equal to the negation of (the sum over all non-pad
positions of the gathered true-class log-probability predictions[b,t,
targets[b,t]]) divided by the number of non-pad positions, and perplexity
equal to exp of that log_perplexity. -/
theorem compute_gather_formula (pred : Fin B → Fin T → Fin V → ℚ)
    (tgt : Fin B → Fin T → ℕ) (hrange : ∀ b t, tgt b t < V)
    (hnp : ∃ b t, tgt b t ≠ 0) :
    compute pred tgt 0 = Except.ok
      ⟨((-(gatherTotal pred tgt 0 / (nonPadCount tgt 0 : ℚ)) : ℚ) : ℝ),
       Real.exp ((-(gatherTotal pred tgt 0 / (nonPadCount tgt 0 : ℚ)) : ℚ) : ℝ)⟩ := by
  have hne := sum_non_pad_ne_zero 0 tgt hnp
  rw [compute_eq_ok pred tgt 0 hrange hne]
  have hlog : log_ppx pred tgt 0
      = -(gatherTotal pred tgt 0 / (nonPadCount tgt 0 : ℚ)) := by
    unfold log_ppx
    rw [sum_real_eq_gatherTotal pred tgt 0 hrange, sum_non_pad_eq_count]
  rw [hlog]

/-- Witness for C1 on the concrete batch `exPred`, `exTgt`. -/
theorem compute_gather_formula_witness :
    compute exPred exTgt 0 = Except.ok
      ⟨((-(gatherTotal exPred exTgt 0 / (nonPadCount exTgt 0 : ℚ)) : ℚ) : ℝ),
       Real.exp ((-(gatherTotal exPred exTgt 0 / (nonPadCount exTgt 0 : ℚ)) : ℚ) : ℝ)⟩ :=
  compute_gather_formula exPred exTgt (by decide) ⟨0, 0, by decide⟩

/-- C2: for in-range targets, the one-hot-then-multiply formulation agrees
with the direct gather at every position, and the two formulations of the
full computation produce identical results. -/
theorem one_hot_gather_equivalence (pred : Fin B → Fin T → Fin V → ℚ)
    (tgt : Fin B → Fin T → ℕ) (padId : ℕ) (hrange : ∀ b t, tgt b t < V) :
    (∀ b t, total_log_ppx pred tgt b t = selected pred tgt b t) ∧
    computeGather pred tgt padId = compute pred tgt padId := by
  have hpt : ∀ b t, total_log_ppx pred tgt b t = selected pred tgt b t := by
    intro b t
    rw [total_log_ppx_eq_selected pred tgt b t (hrange b t)]
    simp [selected, hrange b t]
  refine ⟨hpt, ?_⟩
  unfold computeGather compute computeGatherLog computeLog
  rw [dif_pos hrange, dif_pos hrange]
  by_cases hsum : sum_non_pad padId tgt = 0
  · rw [if_pos hsum, if_pos hsum]
  · rw [if_neg hsum, if_neg hsum]
    have hsums : (∑ b, ∑ t, selected pred tgt b t * non_pad padId tgt b t)
        = ∑ b, ∑ t, real_log_ppx pred tgt padId b t :=
      Finset.sum_congr rfl fun b _ => Finset.sum_congr rfl fun t _ => by
        unfold real_log_ppx
        rw [hpt b t]
    unfold log_ppx sum_real_log_ppx
    rw [hsums]

/-- Witness for C2 on the concrete batch `exPred`, `exTgt`. -/
theorem one_hot_gather_equivalence_witness :
    (∀ b t, total_log_ppx exPred exTgt b t = selected exPred exTgt b t) ∧
    computeGather exPred exTgt 0 = compute exPred exTgt 0 :=
  one_hot_gather_equivalence exPred exTgt 0 (by decide)

/-- C3: on a batch whose targets are all the pad id (with the pad id a
valid vocabulary index), `compute` fails with DivisionByZero and produces
no result. -/
theorem compute_all_pad_division_by_zero (pred : Fin B → Fin T → Fin V → ℚ)
    (tgt : Fin B → Fin T → ℕ) (padId : ℕ) (hrange : ∀ b t, tgt b t < V)
    (hpad : ∀ b t, tgt b t = padId) :
    compute pred tgt padId = Except.error PerplexityError.DivisionByZero := by
  have hsum : sum_non_pad padId tgt = 0 := by
    unfold sum_non_pad
    refine Finset.sum_eq_zero fun b _ => Finset.sum_eq_zero fun t _ => ?_
    rw [non_pad_eq_ite]
    simp [hpad b t]
  unfold compute computeLog
  rw [dif_pos hrange, if_pos hsum]
  rfl

/-- Witness for C3 on the all-padding batch `exTgtPad`. -/
theorem compute_all_pad_division_by_zero_witness :
    compute exPred exTgtPad 0 = Except.error PerplexityError.DivisionByZero :=
  compute_all_pad_division_by_zero exPred exTgtPad 0 (by decide) (by decide)

/-- C4: on a batch containing at least one target id outside [0, V),
`compute` fails with IndexOutOfRange and produces no result. -/
theorem compute_out_of_range_index_error (pred : Fin B → Fin T → Fin V → ℚ)
    (tgt : Fin B → Fin T → ℕ) (padId : ℕ) (hout : ∃ b t, ¬ tgt b t < V) :
    compute pred tgt padId = Except.error PerplexityError.IndexOutOfRange := by
  have h : ¬ ∀ b t, tgt b t < V := by
    obtain ⟨b, t, hbt⟩ := hout
    exact fun hall => hbt (hall b t)
  unfold compute computeLog
  rw [dif_neg h]
  rfl

/-- Witness for C4 on the batch `exTgtBad` whose first target id is 7 with
V = 2. -/
theorem compute_out_of_range_index_error_witness :
    compute exPred exTgtBad 0 = Except.error PerplexityError.IndexOutOfRange :=
  compute_out_of_range_index_error exPred exTgtBad 0 ⟨0, 0, by decide⟩

/-- C5: permuting the sequences of the batch, applying the same
permutation to the rows of predictions and of targets, leaves the result
of `compute` (both log_perplexity and perplexity) unchanged. -/
theorem compute_batch_perm_invariant (pred : Fin B → Fin T → Fin V → ℚ)
    (tgt : Fin B → Fin T → ℕ) (padId : ℕ) (σ : Equiv.Perm (Fin B))
    (hrange : ∀ b t, tgt b t < V) (hnp : ∃ b t, tgt b t ≠ padId) :
    compute (fun b => pred (σ b)) (fun b => tgt (σ b)) padId
      = compute pred tgt padId := by
  have hrange' : ∀ b t, (fun b => tgt (σ b)) b t < V := fun b t => hrange (σ b) t
  have hsnp : sum_non_pad padId (fun b => tgt (σ b)) = sum_non_pad padId tgt := by
    unfold sum_non_pad
    exact Equiv.sum_comp σ fun b => ∑ t, non_pad padId tgt b t
  have hne := sum_non_pad_ne_zero padId tgt hnp
  have hne' : sum_non_pad padId (fun b => tgt (σ b)) ≠ 0 := by
    rw [hsnp]
    exact hne
  rw [compute_eq_ok _ _ padId hrange' hne', compute_eq_ok pred tgt padId hrange hne]
  have hreal : sum_real_log_ppx (fun b => pred (σ b)) (fun b => tgt (σ b)) padId
      = sum_real_log_ppx pred tgt padId := by
    unfold sum_real_log_ppx
    exact Equiv.sum_comp σ fun b => ∑ t, real_log_ppx pred tgt padId b t
  unfold log_ppx
  rw [hreal, hsnp]

/-- Witness for C5: swapping the two sequences of `exPredB2`, `exTgtB2`. -/
theorem compute_batch_perm_invariant_witness :
    compute (fun b => exPredB2 (Equiv.swap (0 : Fin 2) 1 b))
        (fun b => exTgtB2 (Equiv.swap (0 : Fin 2) 1 b)) 0
      = compute exPredB2 exTgtB2 0 :=
  compute_batch_perm_invariant exPredB2 exTgtB2 0 (Equiv.swap 0 1) (by decide)
    ⟨0, 0, by decide⟩

/-- C6: with identical targets (same padding pattern, at least one non-pad
token), if every true-class log-probability of the first batch is at least
the corresponding one of the second batch, then the first batch's
log_perplexity and perplexity are at most the second's. -/
theorem compute_monotone (p₁ p₂ : Fin B → Fin T → Fin V → ℚ)
    (tgt : Fin B → Fin T → ℕ) (padId : ℕ) (hrange : ∀ b t, tgt b t < V)
    (hnp : ∃ b t, tgt b t ≠ padId)
    (hmono : ∀ b t, tgt b t ≠ padId →
      p₂ b t ⟨tgt b t, hrange b t⟩ ≤ p₁ b t ⟨tgt b t, hrange b t⟩) :
    ∃ r₁ r₂, compute p₁ tgt padId = Except.ok r₁ ∧
      compute p₂ tgt padId = Except.ok r₂ ∧
      r₁.log_perplexity ≤ r₂.log_perplexity ∧ r₁.perplexity ≤ r₂.perplexity := by
  have hne := sum_non_pad_ne_zero padId tgt hnp
  have hpos := sum_non_pad_pos padId tgt hnp
  have hA : sum_real_log_ppx p₂ tgt padId ≤ sum_real_log_ppx p₁ tgt padId := by
    unfold sum_real_log_ppx
    refine Finset.sum_le_sum fun b _ => Finset.sum_le_sum fun t _ => ?_
    unfold real_log_ppx
    rw [non_pad_eq_ite]
    by_cases h : tgt b t = padId
    · simp [h]
    · rw [total_log_ppx_eq_selected p₁ tgt b t (hrange b t),
        total_log_ppx_eq_selected p₂ tgt b t (hrange b t)]
      simpa [h] using hmono b t h
  have hq : log_ppx p₁ tgt padId ≤ log_ppx p₂ tgt padId := by
    unfold log_ppx
    exact neg_le_neg ((div_le_div_iff_of_pos_right hpos).mpr hA)
  refine ⟨_, _, compute_eq_ok p₁ tgt padId hrange hne,
    compute_eq_ok p₂ tgt padId hrange hne, ?_, ?_⟩
  · show ((log_ppx p₁ tgt padId : ℚ) : ℝ) ≤ ((log_ppx p₂ tgt padId : ℚ) : ℝ)
    exact_mod_cast hq
  · show Real.exp _ ≤ Real.exp _
    exact Real.exp_le_exp.mpr (by exact_mod_cast hq)

/-- Witness for C6 comparing `exPred` against the uniformly worse
`exPredLow` on `exTgt`. -/
theorem compute_monotone_witness :
    ∃ r₁ r₂, compute exPred exTgt 0 = Except.ok r₁ ∧
      compute exPredLow exTgt 0 = Except.ok r₂ ∧
      r₁.log_perplexity ≤ r₂.log_perplexity ∧ r₁.perplexity ≤ r₂.perplexity :=
  compute_monotone exPred exPredLow exTgt 0 (by decide) ⟨0, 0, by decide⟩
    (by decide)

/-- C7: on a batch with exactly one non-pad token whose true-class
log-probability is p, `compute` returns log_perplexity -p and perplexity
exp(-p). -/
theorem compute_single_token (pred : Fin B → Fin T → Fin V → ℚ)
    (tgt : Fin B → Fin T → ℕ) (padId : ℕ) (b₀ : Fin B) (t₀ : Fin T)
    (hrange : ∀ b t, tgt b t < V) (hone : tgt b₀ t₀ ≠ padId)
    (hothers : ∀ b t, ¬ (b, t) = (b₀, t₀) → tgt b t = padId) :
    compute pred tgt padId = Except.ok
      ⟨((-(selected pred tgt b₀ t₀) : ℚ) : ℝ),
       Real.exp ((-(selected pred tgt b₀ t₀) : ℚ) : ℝ)⟩ := by
  have hnp : ∃ b t, tgt b t ≠ padId := ⟨b₀, t₀, hone⟩
  have hne := sum_non_pad_ne_zero padId tgt hnp
  rw [compute_eq_ok pred tgt padId hrange hne]
  have hcount : sum_non_pad padId tgt = 1 := by
    unfold sum_non_pad
    have key : ∀ b t, non_pad padId tgt b t
        = if (b, t) = (b₀, t₀) then (1 : ℚ) else 0 := by
      intro b t
      rw [non_pad_eq_ite]
      by_cases h : (b, t) = (b₀, t₀)
      · have hb : b = b₀ := congrArg Prod.fst h
        have ht : t = t₀ := congrArg Prod.snd h
        subst hb; subst ht
        rw [if_pos rfl, if_neg hone]
      · rw [if_neg h, if_pos (hothers b t h)]
    rw [Finset.sum_congr rfl fun b _ => Finset.sum_congr rfl fun t _ => key b t,
      ← Finset.sum_product' univ univ
        fun b t => if (b, t) = (b₀, t₀) then (1 : ℚ) else 0,
      Finset.univ_product_univ]
    simp
  have hreal : sum_real_log_ppx pred tgt padId = selected pred tgt b₀ t₀ := by
    unfold sum_real_log_ppx
    have key : ∀ b t, real_log_ppx pred tgt padId b t
        = if (b, t) = (b₀, t₀) then selected pred tgt b₀ t₀ else 0 := by
      intro b t
      unfold real_log_ppx
      rw [non_pad_eq_ite]
      by_cases h : (b, t) = (b₀, t₀)
      · have hb : b = b₀ := congrArg Prod.fst h
        have ht : t = t₀ := congrArg Prod.snd h
        subst hb; subst ht
        rw [if_pos rfl, if_neg hone,
          total_log_ppx_eq_selected pred tgt b t (hrange b t)]
        simp [selected, hrange b t]
      · rw [if_neg h, if_pos (hothers b t h)]
        ring
    rw [Finset.sum_congr rfl fun b _ => Finset.sum_congr rfl fun t _ => key b t,
      ← Finset.sum_product' univ univ
        fun b t => if (b, t) = (b₀, t₀) then selected pred tgt b₀ t₀ else 0,
      Finset.univ_product_univ]
    simp
  have hlp : log_ppx pred tgt padId = -(selected pred tgt b₀ t₀) := by
    unfold log_ppx
    rw [hreal, hcount, div_one]
  rw [hlp]

/-- Witness for C7 on `exPred`, `exTgt`, whose only non-pad token sits at
position (0, 0). -/
theorem compute_single_token_witness :
    compute exPred exTgt 0 = Except.ok
      ⟨((-(selected exPred exTgt 0 0) : ℚ) : ℝ),
       Real.exp ((-(selected exPred exTgt 0 0) : ℚ) : ℝ)⟩ :=
  compute_single_token exPred exTgt 0 0 0 (by decide) (by decide) (by decide)

/-- C8: whenever `compute` succeeds, the returned perplexity is the
exponential of the returned log_perplexity, and hence nonnegative (indeed
positive); both are ordinary real numbers, so in this exact-arithmetic
embedding they are finite by construction. -/
theorem compute_success_exp (pred : Fin B → Fin T → Fin V → ℚ)
    (tgt : Fin B → Fin T → ℕ) (padId : ℕ) (r : PerplexityResult)
    (h : compute pred tgt padId = Except.ok r) :
    r.perplexity = Real.exp r.log_perplexity ∧ 0 ≤ r.perplexity := by
  unfold compute computeLog at h
  by_cases h1 : ∀ b t, tgt b t < V
  · rw [dif_pos h1] at h
    by_cases h2 : sum_non_pad padId tgt = 0
    · rw [if_pos h2] at h
      exact absurd h (by simp [Except.map])
    · rw [if_neg h2] at h
      simp only [Except.map] at h
      injection h with h3
      subst h3
      exact ⟨rfl, (Real.exp_pos _).le⟩
  · rw [dif_neg h1] at h
    exact absurd h (by simp [Except.map])

/-- Witness for C8 on the successful computation over `exPred`, `exTgt`. -/
theorem compute_success_exp_witness :
    (⟨((log_ppx exPred exTgt 0 : ℚ) : ℝ),
      Real.exp ((log_ppx exPred exTgt 0 : ℚ) : ℝ)⟩ : PerplexityResult).perplexity
      = Real.exp (⟨((log_ppx exPred exTgt 0 : ℚ) : ℝ),
          Real.exp ((log_ppx exPred exTgt 0 : ℚ) : ℝ)⟩ :
            PerplexityResult).log_perplexity ∧
    0 ≤ (⟨((log_ppx exPred exTgt 0 : ℚ) : ℝ),
          Real.exp ((log_ppx exPred exTgt 0 : ℚ) : ℝ)⟩ :
            PerplexityResult).perplexity :=
  compute_success_exp exPred exTgt 0 _
    (compute_eq_ok exPred exTgt 0 (by decide)
      (sum_non_pad_ne_zero 0 exTgt ⟨0, 0, by decide⟩))

/-- C9: two batches with identical targets whose predictions agree at
every non-pad position produce the same result: values at pad positions
have no influence. -/
theorem compute_pad_entries_irrelevant (p₁ p₂ : Fin B → Fin T → Fin V → ℚ)
    (tgt : Fin B → Fin T → ℕ) (padId : ℕ) (hrange : ∀ b t, tgt b t < V)
    (hnp : ∃ b t, tgt b t ≠ padId)
    (hagree : ∀ b t, tgt b t ≠ padId → ∀ v, p₁ b t v = p₂ b t v) :
    compute p₁ tgt padId = compute p₂ tgt padId := by
  have hne := sum_non_pad_ne_zero padId tgt hnp
  rw [compute_eq_ok p₁ tgt padId hrange hne,
    compute_eq_ok p₂ tgt padId hrange hne]
  have hpt : ∀ b t, real_log_ppx p₁ tgt padId b t
      = real_log_ppx p₂ tgt padId b t := by
    intro b t
    unfold real_log_ppx
    rw [non_pad_eq_ite]
    by_cases h : tgt b t = padId
    · simp [h]
    · rw [total_log_ppx_eq_selected p₁ tgt b t (hrange b t),
        total_log_ppx_eq_selected p₂ tgt b t (hrange b t), hagree b t h]
  have hlp : log_ppx p₁ tgt padId = log_ppx p₂ tgt padId := by
    unfold log_ppx sum_real_log_ppx
    rw [Finset.sum_congr rfl fun b _ => Finset.sum_congr rfl fun t _ => hpt b t]
  rw [hlp]

/-- Witness for C9: `exPredPadDiff` differs from `exPred` only at the pad
position of `exTgt`. -/
theorem compute_pad_entries_irrelevant_witness :
    compute exPred exTgt 0 = compute exPredPadDiff exTgt 0 :=
  compute_pad_entries_irrelevant exPred exPredPadDiff exTgt 0 (by decide)
    ⟨0, 0, by decide⟩ (by decide)

/-- C10: two batches with identical in-range targets whose predictions
agree, at every position, in the entry indexed by the true token produce
the same result: the one-hot row zeroes every other vocabulary entry. -/
theorem compute_true_class_only (p₁ p₂ : Fin B → Fin T → Fin V → ℚ)
    (tgt : Fin B → Fin T → ℕ) (padId : ℕ) (hrange : ∀ b t, tgt b t < V)
    (hnp : ∃ b t, tgt b t ≠ padId)
    (hagree : ∀ b t, p₁ b t ⟨tgt b t, hrange b t⟩ = p₂ b t ⟨tgt b t, hrange b t⟩) :
    compute p₁ tgt padId = compute p₂ tgt padId := by
  have hne := sum_non_pad_ne_zero padId tgt hnp
  rw [compute_eq_ok p₁ tgt padId hrange hne,
    compute_eq_ok p₂ tgt padId hrange hne]
  have hpt : ∀ b t, real_log_ppx p₁ tgt padId b t
      = real_log_ppx p₂ tgt padId b t := by
    intro b t
    unfold real_log_ppx
    rw [total_log_ppx_eq_selected p₁ tgt b t (hrange b t),
      total_log_ppx_eq_selected p₂ tgt b t (hrange b t), hagree b t]
  have hlp : log_ppx p₁ tgt padId = log_ppx p₂ tgt padId := by
    unfold log_ppx sum_real_log_ppx
    rw [Finset.sum_congr rfl fun b _ => Finset.sum_congr rfl fun t _ => hpt b t]
  rw [hlp]

/-- Witness for C10: `exPredOther` matches `exPred` exactly in the
true-class entries of `exTgt` and nowhere else. -/
theorem compute_true_class_only_witness :
    compute exPred exTgt 0 = compute exPredOther exTgt 0 :=
  compute_true_class_only exPred exPredOther exTgt 0 (by decide)
    ⟨0, 0, by decide⟩ (by decide)

end Perplexity
